import Mathlib

/-!
Shallow embedding of the OI baseline/diff/alert core of `src/app.py`
(Nifty weekly OI spike monitor).

Modelling conventions: Python ints are `Int`; Python floats are exact
rationals `ℚ` (`round` is banker's rounding, as Python's); Python dicts
keyed by strings are insertion-ordered association lists; fallible Python
operations (`int(...)` on unparseable data, pandas comparisons over
mixed-type columns) are `Except String`; an uncaught Python exception is
an `Except.error` result of the whole scan, with exactly the state
mutations that happened before the raise retained.  Ambient time
(IST date, IST time of day, formatted clock string) is passed in as part
of the scan input, as are the results of the two external fetches.
-/

namespace NiftyOiAlert

/-- CONFIG constant `OI_SPIKE_THRESHOLD = 500` from app.py (compared against
the float `pct`, hence modelled in `ℚ`). -/
def OI_SPIKE_THRESHOLD : ℚ := 500

/-- CONFIG constant `MIN_BASE_OI = 1000` from app.py. -/
def MIN_BASE_OI : Int := 1000

/-- CONFIG constant `MAX_ALERTS_TO_KEEP = 50` from app.py. -/
def MAX_ALERTS_TO_KEEP : Nat := 50

/-- CONFIG constant `STRIKE_RANGE_POINTS = 150` from app.py. -/
def STRIKE_RANGE_POINTS : Int := 150

/-- Python's `round` on an exact value: round half to even (banker's
rounding).  Used for `round(spot / 50)` and for `f"{pct:.1f}"`. -/
def roundHalfEven (q : ℚ) : Int :=
  let f : Int := ⌊q⌋
  let r : ℚ := q - (f : ℚ)
  if r < 1 / 2 then f
  else if 1 / 2 < r then f + 1
  else if f % 2 = 0 then f else f + 1

/-- A Python dict mapping contract-key strings to OI values
(`st.session_state.prev_oi`, `current_oi`), as an insertion-ordered
association list. -/
abbrev OiMap := List (String × Int)

/-- Python `m.get(k, d)`. -/
def dictGet (m : OiMap) (k : String) (d : Int) : Int :=
  match m.find? (fun p => p.1 == k) with
  | some p => p.2
  | none => d

/-- Python `m[k] = v`: replace in place if the key exists, else append. -/
def dictInsert : OiMap → String → Int → OiMap
  | [], k, v => [(k, v)]
  | p :: rest, k, v => if p.1 = k then (k, v) :: rest else p :: dictInsert rest k v

/-- Lookup that distinguishes an absent key from a stored value. -/
def oiLookup (m : OiMap) (k : String) : Option Int :=
  (m.find? (fun p => p.1 == k)).map (fun p => p.2)

/-- One alert dict `{"time": ..., "msg": ...}` from app.py. -/
structure Alert where
  time : String
  msg : String
deriving DecidableEq

/-- The `st.session_state` fields the core reads and writes. -/
structure ScanState where
  prev_oi : OiMap
  alerts : List Alert
  warmed_up : Bool
  last_check : Option String
  last_run_date : Option Int
deriving DecidableEq

/-- `is_market_open` from app.py: `dtime(9,15) <= now_ist <= dtime(15,30)`,
with the current IST time of day given in seconds since midnight. -/
def is_market_open (nowSec : Nat) : Bool :=
  decide (9 * 3600 + 15 * 60 ≤ nowSec) && decide (nowSec ≤ 15 * 3600 + 30 * 60)

/-- `reset_on_new_trading_day` from app.py.  `today` is today's IST date
(as an abstract day number); note the code clears state only when the date
changed AND the market is open. -/
def reset_on_new_trading_day (today : Int) (nowSec : Nat) (st : ScanState) : ScanState :=
  if st.last_run_date ≠ some today ∧ is_market_open nowSec = true then
    { prev_oi := [], warmed_up := false, alerts := [],
      last_run_date := some today, last_check := st.last_check }
  else
    st

/-- A raw cell of the option-chain table: a number, a non-numeric string,
or missing. -/
inductive PyVal where
  | num : Int → PyVal
  | str : String → PyVal
  | missing : PyVal
deriving DecidableEq

/-- One raw row of the option chain, with the fields app.py reads. -/
structure RawRow where
  symbol : Option String
  strike_price : PyVal
  option_type : Option String
  oi : PyVal
deriving DecidableEq

/-- Decimal digits of a string, as a number; `none` when any character
is not a digit (or the string is empty). -/
def digitsToNat? : List Char → Option Nat
  | [] => none
  | [c] => if c.isDigit then some (c.toNat - '0'.toNat) else none
  | c :: rest =>
    if c.isDigit then
      (digitsToNat? rest).map (fun n => (c.toNat - '0'.toNat) * 10 ^ rest.length + n)
    else none

/-- Python `int(...)` applied to a string: an optional minus sign and
decimal digits parse; anything else raises `ValueError`. -/
def pyStrToInt? (s : String) : Option Int :=
  match s.data with
  | '-' :: rest => (digitsToNat? rest).map (fun n => -(n : Int))
  | ds => (digitsToNat? ds).map (fun n => (n : Int))

/-- Python `int(row.get(field, 0))`: missing fields default to `0`,
numeric cells pass through, string cells parse as an integer or raise
`ValueError`. -/
def pyInt : PyVal → Except String Int
  | .num n => .ok n
  | .str s =>
    match pyStrToInt? s with
    | some n => .ok n
    | none => .error "ValueError"
  | .missing => .ok 0

/-- Whether a fallible step succeeded. -/
def exceptOk : Except String α → Bool
  | .ok _ => true
  | .error _ => false

/-- The per-row field extraction at the top of the scan loop
(`strike = int(...)`, `opt_type = row.get("option_type", "?")`,
`oi = int(...)`), in source order so the first failure raises. -/
def parseRow (r : RawRow) : Except String (Int × String × Int) :=
  match pyInt r.strike_price with
  | .error e => .error e
  | .ok strike =>
    let opt_type := r.option_type.getD "?"
    match pyInt r.oi with
    | .error e => .error e
    | .ok oi => .ok (strike, opt_type, oi)

/-- `key = f"{opt_type}_{strike}"` from app.py. -/
def keyOf (strike : Int) (opt_type : String) : String :=
  opt_type ++ "_" ++ toString strike

/-- Whether the first character list is a prefix of the second. -/
def charsPrefix : List Char → List Char → Bool
  | [], _ => true
  | _ :: _, [] => false
  | p :: ps, c :: cs => p == c && charsPrefix ps cs

/-- Whether `pat` occurs as a contiguous run inside the second list. -/
def charsInfix (pat : List Char) : List Char → Bool
  | [] => pat.isEmpty
  | c :: cs => charsPrefix pat (c :: cs) || charsInfix pat cs

/-- Python's substring test (`pat in s`, pandas
`.str.contains(pat, regex=False)`). -/
def strContainsSubstr (s pat : String) : Bool :=
  charsInfix pat.data s.data

/-- The expiry filter predicate
`df["symbol"].str.contains(expiry, regex=False, na=False)`:
a missing symbol is excluded (`na=False`). -/
def symbolMatches (expiryTag : String) (r : RawRow) : Bool :=
  match r.symbol with
  | some s => strContainsSubstr s expiryTag
  | none => false

/-- The strike-window predicate
`(strike_price >= atm - 150) & (strike_price <= atm + 150)`; a missing
strike is NaN in pandas and both comparisons are false. -/
def strikeInRange (atm : Int) (v : PyVal) : Bool :=
  match v with
  | .num s => decide (atm - STRIKE_RANGE_POINTS ≤ s) && decide (s ≤ atm + STRIKE_RANGE_POINTS)
  | _ => false

/-- The strike-window filter on the expiry-filtered frame.  A non-numeric
string in the `strike_price` column makes the pandas comparison raise
`TypeError` for the whole frame; otherwise rows outside
`[atm - 150, atm + 150]` are dropped. -/
def strikeFilter (rows : List RawRow) (atm : Int) : Except String (List RawRow) :=
  if rows.any (fun r => match r.strike_price with | .str _ => true | _ => false) then
    .error "TypeError"
  else
    .ok (rows.filter (fun r => strikeInRange atm r.strike_price))

/-- One entry of `expiryData` from the provider: `expiry` is the date
(day number) obtained from `datetime.fromtimestamp(exp["expiry"]).date()`,
`none` when that conversion raises (swallowed by the bare `except`);
`date` is the display string. -/
structure ExpiryEntry where
  expiry : Option Int
  date : String
deriving DecidableEq

/-- Strict lexicographic order on `(days, date)` pairs, as Python compares
tuples in `weekly.sort()`. -/
def lexLtB (a b : Int × String) : Bool :=
  decide (a.1 < b.1) || (decide (a.1 = b.1) && decide (a.2 < b.2))

/-- The head of the sorted list (`weekly.sort(); weekly[0]`): the
lexicographic minimum. -/
def listMinLex : List (Int × String) → Option (Int × String)
  | [] => none
  | x :: xs => some (xs.foldl (fun m y => if lexLtB y m then y else m) x)

/-- `get_current_weekly_expiry` from app.py. -/
def get_current_weekly_expiry (expiry_list : List ExpiryEntry) (today : Int) : String :=
  if expiry_list.isEmpty then "Unknown"
  else
    let weekly := expiry_list.filterMap (fun e =>
      match e.expiry with
      | some d =>
        let days := d - today
        if 0 ≤ days ∧ days ≤ 7 then some (days, e.date) else none
      | none => none)
    match listMinLex weekly with
    | some m => m.2
    | none =>
      match expiry_list.head? with
      | some e => e.date
      | none => "Unknown"

/-- Digit grouping helper for `f"{n:,}"`: chunks of three, starting from
the least significant digit (the input list is reversed digits). -/
def chunk3 : List Char → List (List Char)
  | [] => []
  | a :: b :: c :: rest => [a, b, c] :: chunk3 rest
  | [a] => [[a]]
  | [a, b] => [[a, b]]

/-- Python `f"{n:,}"`: decimal digits with thousands separators. -/
def fmtComma (n : Int) : String :=
  let sign := if n < 0 then "-" else ""
  let rev := (Nat.toDigits 10 n.natAbs).reverse
  sign ++ String.mk ((((chunk3 rev).intersperse [',']).flatten).reverse)

/-- Python `f"{q:.1f}"`: one decimal place, round half to even. -/
def fmtPct1 (q : ℚ) : String :=
  let t := roundHalfEven (q * 10)
  let sign := if t < 0 then "-" else ""
  let a := t.natAbs
  sign ++ toString (a / 10) ++ "." ++ toString (a % 10)

/-- The alert message
`f"{opt_type} {strike} | +{pct:.1f}% | {prev:,} → {oi:,}"` from app.py. -/
def alert_msg (opt_type : String) (strike : Int) (pct : ℚ) (prev oi : Int) : String :=
  opt_type ++ " " ++ toString strike ++ " | +" ++ fmtPct1 pct ++ "% | " ++
    fmtComma prev ++ " → " ++ fmtComma oi

/-- One iteration of the scan loop body on an already-parsed row
`(strike, opt_type, oi)`: record `current_oi[key] = oi`, look up the
prior, and append an alert exactly when
`warmed_up and prev >= MIN_BASE_OI and oi > prev` and
`pct > OI_SPIKE_THRESHOLD`. -/
def rowStep (warmed : Bool) (prevMap : OiMap) (nowStr : String)
    (acc : OiMap × List Alert) (p : Int × String × Int) : OiMap × List Alert :=
  let strike := p.1
  let opt_type := p.2.1
  let oi := p.2.2
  let key := keyOf strike opt_type
  let current := dictInsert acc.1 key oi
  let prev := dictGet prevMap key 0
  if warmed = true ∧ prev ≥ MIN_BASE_OI ∧ oi > prev then
    let pct : ℚ := ((oi : ℚ) - (prev : ℚ)) / (prev : ℚ) * 100
    if pct > OI_SPIKE_THRESHOLD then
      (current, acc.2 ++ [{ time := nowStr, msg := alert_msg opt_type strike pct prev oi }])
    else (current, acc.2)
  else (current, acc.2)

/-- Field extraction over all rows in order; the first unparseable cell
raises. -/
def parseRows : List RawRow → Except String (List (Int × String × Int))
  | [] => .ok []
  | r :: rest =>
    match parseRow r with
    | .error e => .error e
    | .ok p =>
      match parseRows rest with
      | .error e => .error e
      | .ok ps => .ok (p :: ps)

/-- The whole `for _, row in df.iterrows()` loop: parse every row (the
first unparseable cell raises and aborts the scan, since nothing is
committed until after the loop) and fold the loop body over the parsed
rows, starting from `current_oi = {}`, `new_alerts = []`. -/
def runRows (warmed : Bool) (prevMap : OiMap) (nowStr : String) (rows : List RawRow) :
    Except String (OiMap × List Alert) :=
  match parseRows rows with
  | .error e => .error e
  | .ok parsed => .ok (parsed.foldl (rowStep warmed prevMap nowStr) ([], []))

/-- The `current_oi[key] = oi` effect of one parsed row. -/
def insStep (m : OiMap) (p : Int × String × Int) : OiMap :=
  dictInsert m (keyOf p.1 p.2.1) p.2.2

/-- Just the `current_oi` dict the loop builds from the parsed rows. -/
def buildOiMap (parsed : List (Int × String × Int)) : OiMap :=
  parsed.foldl insStep []

/-- The ambient inputs of one scan: today's IST date, the IST time of day
in seconds, the formatted clock string, and the results of the two
external fetches (`none` models a failed fetch). -/
structure ScanInput where
  today : Int
  nowSec : Nat
  nowStr : String
  spot : Option Int
  chain : Option (List RawRow × List ExpiryEntry)

/-- The 4-tuple `return spot, atm, new_alerts, expiry` of
`scan_for_oi_spikes` (`spot`/`atm` are `None` on a spot-fetch failure;
the last component carries either the expiry tag or a sentinel text). -/
structure ScanResult where
  spot : Option Int
  atm : Option Int
  new_alerts : List Alert
  expiry : String
deriving DecidableEq

/-- `scan_for_oi_spikes` from app.py, as a function of the ambient inputs
and the prior session state.  The first component is the returned tuple
(`Except.error` models an uncaught `TypeError`/`ValueError` escaping the
loop); the second is the session state after the call, which on every
path includes the mutations of the initial `reset_on_new_trading_day`. -/
def scan_for_oi_spikes (inp : ScanInput) (st : ScanState) :
    Except String ScanResult × ScanState :=
  let st1 := reset_on_new_trading_day inp.today inp.nowSec st
  match inp.spot with
  | none => (.ok ⟨none, none, [], "Spot fetch failed"⟩, st1)
  | some spot =>
    let atm := roundHalfEven ((spot : ℚ) / 50) * 50
    match inp.chain with
    | none => (.ok ⟨some spot, some atm, [], "Chain fetch failed"⟩, st1)
    | some (raw, expiry_info) =>
      if raw.isEmpty then (.ok ⟨some spot, some atm, [], "Empty chain data"⟩, st1)
      else if raw.isEmpty then (.ok ⟨some spot, some atm, [], "No strikes in chain"⟩, st1)
      else
        let expiry := get_current_weekly_expiry expiry_info inp.today
        let df1 := raw.filter (symbolMatches expiry)
        match strikeFilter df1 atm with
        | .error e => (.error e, st1)
        | .ok df2 =>
          if df2.isEmpty then
            (.ok ⟨some spot, some atm, [], expiry ++ " (no matching strikes)"⟩, st1)
          else
            match runRows st1.warmed_up st1.prev_oi inp.nowStr df2 with
            | .error e => (.error e, st1)
            | .ok res =>
              if st1.warmed_up = false then
                (.ok ⟨some spot, some atm, [], expiry⟩,
                 { st1 with prev_oi := res.1, warmed_up := true,
                            last_check := some inp.nowStr })
              else
                (.ok ⟨some spot, some atm, res.2, expiry⟩,
                 { st1 with prev_oi := res.1, last_check := some inp.nowStr })

/-- The parsed rows of a scan that reaches the commit point, `none` when
any stage fails (failed fetch, empty chain, pandas `TypeError`, empty
post-filter set, or an unparseable row).  Mirrors the stage structure of
`scan_for_oi_spikes`; it does not depend on the session state. -/
def scanRows (inp : ScanInput) : Option (List (Int × String × Int)) :=
  match inp.spot with
  | none => none
  | some spot =>
    let atm := roundHalfEven ((spot : ℚ) / 50) * 50
    match inp.chain with
    | none => none
    | some (raw, expiry_info) =>
      if raw.isEmpty then none
      else
        let expiry := get_current_weekly_expiry expiry_info inp.today
        match strikeFilter (raw.filter (symbolMatches expiry)) atm with
        | .error _ => none
        | .ok df2 =>
          if df2.isEmpty then none
          else
            match parseRows df2 with
            | .error _ => none
            | .ok parsed => some parsed

/-- Python `l[-n:]`: the last `n` elements. -/
def lastN (n : Nat) (l : List Alert) : List Alert :=
  l.drop (l.length - n)

/-- The alert-ledger merge from the UI section of app.py: append each new
alert whose `msg` is not already in the ledger, then truncate to the last
`MAX_ALERTS_TO_KEEP` entries. -/
def merge_alerts (existing incoming : List Alert) : List Alert :=
  lastN MAX_ALERTS_TO_KEEP
    (incoming.foldl
      (fun acc a => if a.msg ∈ acc.map Alert.msg then acc else acc ++ [a])
      existing)

/-- Modelled from the spec: the Snapshot Normalizer the specification
describes, whose expiry-filter stage "falls back to using the unfiltered
set" when no symbol matches, before the strike-range filter.  This
fallback is absent from src/app.py; the definition exists only to compare
the specified behaviour with the code's actual pipeline. -/
def normalize_with_fallback (raw : List RawRow) (expiryTag : String) (atm : Int) :
    Except String (List RawRow) :=
  let df1 := raw.filter (symbolMatches expiryTag)
  let base := if df1.isEmpty then raw else df1
  strikeFilter base atm

/-! ### Helper lemmas about the association-list dictionary -/

theorem oiLookup_nil (k : String) : oiLookup [] k = none := rfl

theorem dictInsert_lookup_self (m : OiMap) (k : String) (v : Int) :
    oiLookup (dictInsert m k v) k = some v := by
  induction m with
  | nil => simp [dictInsert, oiLookup, List.find?]
  | cons p rest ih =>
    by_cases h : p.1 = k
    · simp [dictInsert, h, oiLookup, List.find?]
    · have hb : (p.1 == k) = false := by simp [h]
      simpa [dictInsert, h, oiLookup, List.find?, hb] using ih

theorem dictInsert_lookup_other (m : OiMap) (k k' : String) (v : Int) (h : k' ≠ k) :
    oiLookup (dictInsert m k v) k' = oiLookup m k' := by
  have hb : (k == k') = false := by simp [Ne.symm h]
  induction m with
  | nil => simp [dictInsert, oiLookup, List.find?, hb]
  | cons p rest ih =>
    by_cases hp : p.1 = k
    · have hb2 : (p.1 == k') = false := by simp [hp, Ne.symm h]
      simp [dictInsert, hp, oiLookup, List.find?, hb, hb2]
    · by_cases hq : p.1 = k'
      · simp [dictInsert, hp, oiLookup, List.find?, hq, h]
      · have hb2 : (p.1 == k') = false := by simp [hq]
        simpa [dictInsert, hp, oiLookup, List.find?, hb2] using ih

theorem foldl_insStep_absent (ps : List (Int × String × Int)) :
    ∀ (m : OiMap) (k : String), k ∉ ps.map (fun p => keyOf p.1 p.2.1) →
      oiLookup (ps.foldl insStep m) k = oiLookup m k := by
  induction ps with
  | nil => intro m k _; rfl
  | cons q rest ih =>
    intro m k hk
    simp only [List.map_cons, List.mem_cons, not_or] at hk
    rw [List.foldl_cons, ih _ k hk.2]
    exact dictInsert_lookup_other m (keyOf q.1 q.2.1) k q.2.2 hk.1

theorem foldl_insStep_mem (ps : List (Int × String × Int)) :
    ∀ (m : OiMap), (ps.map (fun p => keyOf p.1 p.2.1)).Nodup →
      ∀ p ∈ ps, oiLookup (ps.foldl insStep m) (keyOf p.1 p.2.1) = some p.2.2 := by
  induction ps with
  | nil => intro m _ p hp; cases hp
  | cons q rest ih =>
    intro m hnd p hp
    simp only [List.map_cons, List.nodup_cons] at hnd
    rcases List.mem_cons.mp hp with hp' | hp'
    · subst hp'
      rw [List.foldl_cons, foldl_insStep_absent rest _ _ hnd.1]
      exact dictInsert_lookup_self m _ _
    · rw [List.foldl_cons]
      exact ih _ hnd.2 p hp'

theorem foldl_insStep_domain (ps : List (Int × String × Int)) :
    ∀ (m : OiMap) (k : String), oiLookup (ps.foldl insStep m) k ≠ none →
      oiLookup m k ≠ none ∨ k ∈ ps.map (fun p => keyOf p.1 p.2.1) := by
  induction ps with
  | nil => intro m k h; exact Or.inl h
  | cons q rest ih =>
    intro m k h
    rw [List.foldl_cons] at h
    rcases ih _ k h with h1 | h1
    · by_cases hk : k = keyOf q.1 q.2.1
      · exact Or.inr (by simp [hk])
      · rw [insStep, dictInsert_lookup_other _ _ _ _ hk] at h1
        exact Or.inl h1
    · exact Or.inr (by simp [h1])

theorem buildOiMap_mem (ps : List (Int × String × Int))
    (hnd : (ps.map (fun p => keyOf p.1 p.2.1)).Nodup) :
    ∀ p ∈ ps, oiLookup (buildOiMap ps) (keyOf p.1 p.2.1) = some p.2.2 :=
  foldl_insStep_mem ps [] hnd

theorem buildOiMap_domain (ps : List (Int × String × Int)) (k : String)
    (h : oiLookup (buildOiMap ps) k ≠ none) :
    k ∈ ps.map (fun p => keyOf p.1 p.2.1) := by
  rcases foldl_insStep_domain ps [] k h with h1 | h1
  · exact absurd rfl h1
  · exact h1

/-! ### Helper lemmas about the scan loop -/

theorem rowStep_fst (w : Bool) (pm : OiMap) (ns : String)
    (acc : OiMap × List Alert) (p : Int × String × Int) :
    (rowStep w pm ns acc p).1 = insStep acc.1 p := by
  simp only [rowStep, insStep]
  split <;> first | rfl | (split <;> rfl)

theorem foldl_rowStep_fst (w : Bool) (pm : OiMap) (ns : String)
    (ps : List (Int × String × Int)) :
    ∀ acc : OiMap × List Alert,
      (ps.foldl (rowStep w pm ns) acc).1 = ps.foldl insStep acc.1 := by
  induction ps with
  | nil => intro acc; rfl
  | cons q rest ih =>
    intro acc
    rw [List.foldl_cons, List.foldl_cons, ih, rowStep_fst]

theorem rowStep_snd_not_warmed (pm : OiMap) (ns : String)
    (acc : OiMap × List Alert) (p : Int × String × Int) :
    (rowStep false pm ns acc p).2 = acc.2 := by
  simp [rowStep]

theorem foldl_rowStep_snd_not_warmed (pm : OiMap) (ns : String)
    (ps : List (Int × String × Int)) :
    ∀ acc : OiMap × List Alert,
      (ps.foldl (rowStep false pm ns) acc).2 = acc.2 := by
  induction ps with
  | nil => intro acc; rfl
  | cons q rest ih =>
    intro acc
    rw [List.foldl_cons, ih, rowStep_snd_not_warmed]

theorem parseRows_error_of_mem (rows : List RawRow) (r : RawRow)
    (hr : r ∈ rows) (hbad : exceptOk (parseRow r) = false) :
    exceptOk (parseRows rows) = false := by
  induction rows with
  | nil => cases hr
  | cons x xs ih =>
    rcases List.mem_cons.mp hr with hr' | hr'
    · subst hr'
      cases hpx : parseRow r with
      | error e => simp [parseRows, hpx, exceptOk]
      | ok p => rw [hpx] at hbad; simp [exceptOk] at hbad
    · cases hpx : parseRow x with
      | error e => simp [parseRows, hpx, exceptOk]
      | ok p =>
        have hxs := ih hr'
        cases hps : parseRows xs with
        | error e => simp [parseRows, hpx, hps, exceptOk]
        | ok ps => rw [hps] at hxs; simp [exceptOk] at hxs

/-! ### Helper lemmas about the alert ledger -/

theorem lastN_length (n : Nat) (l : List Alert) :
    (lastN n l).length = min n l.length := by
  simp only [lastN, List.length_drop]
  omega

theorem lastN_of_length_le (n : Nat) (l : List Alert) (h : l.length ≤ n) :
    lastN n l = l := by
  simp only [lastN, Nat.sub_eq_zero_of_le h, List.drop_zero]

theorem dedup_foldl (incoming : List Alert) :
    ∀ existing : List Alert, (incoming.map Alert.msg).Nodup →
      incoming.foldl
          (fun acc a => if a.msg ∈ acc.map Alert.msg then acc else acc ++ [a])
          existing
        = existing ++ incoming.filter (fun a => decide (a.msg ∉ existing.map Alert.msg)) := by
  induction incoming with
  | nil => intro existing _; simp
  | cons a rest ih =>
    intro existing hnd
    simp only [List.map_cons, List.nodup_cons] at hnd
    obtain ⟨ha, hrest⟩ := hnd
    simp only [List.foldl_cons]
    by_cases hmem : a.msg ∈ existing.map Alert.msg
    · rw [if_pos hmem, ih existing hrest, List.filter_cons]
      simp [hmem]
    · rw [if_neg hmem, ih (existing ++ [a]) hrest, List.filter_cons]
      have hdec : decide (a.msg ∉ existing.map Alert.msg) = true := by simp [hmem]
      rw [if_pos hdec, List.append_assoc, List.singleton_append]
      congr 2
      apply List.filter_congr
      intro b hb
      have hbne : b.msg ≠ a.msg := by
        intro hEq
        exact ha (hEq ▸ List.mem_map_of_mem Alert.msg hb)
      simp [List.mem_append, hbne]

/-! ### Helper lemmas about the reset policy -/

theorem reset_of_same_date (today : Int) (nowSec : Nat) (st : ScanState)
    (h : st.last_run_date = some today) :
    reset_on_new_trading_day today nowSec st = st := by
  simp [reset_on_new_trading_day, h]

theorem reset_of_market_closed (today : Int) (nowSec : Nat) (st : ScanState)
    (h : is_market_open nowSec = false) :
    reset_on_new_trading_day today nowSec st = st := by
  simp [reset_on_new_trading_day, h]

theorem reset_fires (today : Int) (nowSec : Nat) (st : ScanState)
    (h1 : st.last_run_date ≠ some today) (h2 : is_market_open nowSec = true) :
    reset_on_new_trading_day today nowSec st =
      { prev_oi := [], alerts := [], warmed_up := false,
        last_check := st.last_check, last_run_date := some today } := by
  simp [reset_on_new_trading_day, h1, h2]

theorem reset_warmed_up_false (today : Int) (nowSec : Nat) (st : ScanState)
    (h : st.warmed_up = false) :
    (reset_on_new_trading_day today nowSec st).warmed_up = false := by
  unfold reset_on_new_trading_day
  split <;> simp [h]

/-! ### Branch characterizations of the scan -/

theorem scan_eq_spot_none (inp : ScanInput) (st : ScanState) (h : inp.spot = none) :
    scan_for_oi_spikes inp st =
      (.ok ⟨none, none, [], "Spot fetch failed"⟩,
       reset_on_new_trading_day inp.today inp.nowSec st) := by
  simp only [scan_for_oi_spikes, h]

theorem scan_eq_chain_none (inp : ScanInput) (st : ScanState) (sp : Int)
    (hs : inp.spot = some sp) (hc : inp.chain = none) :
    scan_for_oi_spikes inp st =
      (.ok ⟨some sp, some (roundHalfEven ((sp : ℚ) / 50) * 50), [], "Chain fetch failed"⟩,
       reset_on_new_trading_day inp.today inp.nowSec st) := by
  simp only [scan_for_oi_spikes, hs, hc]

theorem scan_eq_empty_chain (inp : ScanInput) (st : ScanState) (sp : Int)
    (raw : List RawRow) (einfo : List ExpiryEntry)
    (hs : inp.spot = some sp) (hc : inp.chain = some (raw, einfo))
    (hre : raw.isEmpty = true) :
    scan_for_oi_spikes inp st =
      (.ok ⟨some sp, some (roundHalfEven ((sp : ℚ) / 50) * 50), [], "Empty chain data"⟩,
       reset_on_new_trading_day inp.today inp.nowSec st) := by
  simp only [scan_for_oi_spikes, hs, hc, hre, if_true]

theorem scan_eq_main (inp : ScanInput) (st : ScanState) (sp : Int)
    (raw : List RawRow) (einfo : List ExpiryEntry)
    (hs : inp.spot = some sp) (hc : inp.chain = some (raw, einfo))
    (hre : raw.isEmpty = false) :
    scan_for_oi_spikes inp st =
      (let st1 := reset_on_new_trading_day inp.today inp.nowSec st
       let atm := roundHalfEven ((sp : ℚ) / 50) * 50
       let expiry := get_current_weekly_expiry einfo inp.today
       match strikeFilter (raw.filter (symbolMatches expiry)) atm with
       | .error e => (.error e, st1)
       | .ok df2 =>
         if df2.isEmpty then
           (.ok ⟨some sp, some atm, [], expiry ++ " (no matching strikes)"⟩, st1)
         else
           match runRows st1.warmed_up st1.prev_oi inp.nowStr df2 with
           | .error e => (.error e, st1)
           | .ok res =>
             if st1.warmed_up = false then
               (.ok ⟨some sp, some atm, [], expiry⟩,
                { st1 with prev_oi := res.1, warmed_up := true,
                           last_check := some inp.nowStr })
             else
               (.ok ⟨some sp, some atm, res.2, expiry⟩,
                { st1 with prev_oi := res.1, last_check := some inp.nowStr })) := by
  simp only [scan_for_oi_spikes, hs, hc, hre, Bool.false_eq_true, if_false]

/-- Every failing scan leaves the session state exactly as the initial
trading-day reset left it, and returns an empty alert list when it
returns at all. -/
theorem scan_fail (inp : ScanInput) (st : ScanState) (h : scanRows inp = none) :
    (scan_for_oi_spikes inp st).2 = reset_on_new_trading_day inp.today inp.nowSec st ∧
    ∀ r, (scan_for_oi_spikes inp st).1 = Except.ok r → r.new_alerts = [] := by
  cases hs : inp.spot with
  | none =>
    rw [scan_eq_spot_none inp st hs]
    exact ⟨rfl, fun r hr => by cases hr; rfl⟩
  | some sp =>
    cases hc : inp.chain with
    | none =>
      rw [scan_eq_chain_none inp st sp hs hc]
      exact ⟨rfl, fun r hr => by cases hr; rfl⟩
    | some pr =>
      obtain ⟨raw, einfo⟩ := pr
      cases hre : raw.isEmpty with
      | true =>
        rw [scan_eq_empty_chain inp st sp raw einfo hs hc hre]
        exact ⟨rfl, fun r hr => by cases hr; rfl⟩
      | false =>
        simp only [scanRows, hs, hc, hre, Bool.false_eq_true, if_false] at h
        cases hsf : strikeFilter
            (raw.filter (symbolMatches (get_current_weekly_expiry einfo inp.today)))
            (roundHalfEven ((sp : ℚ) / 50) * 50) with
        | error e =>
          have hscan : scan_for_oi_spikes inp st =
              (.error e, reset_on_new_trading_day inp.today inp.nowSec st) := by
            rw [scan_eq_main inp st sp raw einfo hs hc hre]
            simp only [hsf]
          rw [hscan]
          exact ⟨rfl, fun r hr => by cases hr⟩
        | ok df2 =>
          rw [hsf] at h
          cases hdf : df2.isEmpty with
          | true =>
            have hscan : scan_for_oi_spikes inp st =
                (.ok ⟨some sp, some (roundHalfEven ((sp : ℚ) / 50) * 50), [],
                      get_current_weekly_expiry einfo inp.today ++ " (no matching strikes)"⟩,
                 reset_on_new_trading_day inp.today inp.nowSec st) := by
              rw [scan_eq_main inp st sp raw einfo hs hc hre]
              simp only [hsf, hdf, if_true]
            rw [hscan]
            exact ⟨rfl, fun r hr => by cases hr; rfl⟩
          | false =>
            simp only [hdf, Bool.false_eq_true, if_false] at h
            cases hpr : parseRows df2 with
            | error e =>
              have hscan : scan_for_oi_spikes inp st =
                  (.error e, reset_on_new_trading_day inp.today inp.nowSec st) := by
                rw [scan_eq_main inp st sp raw einfo hs hc hre]
                simp only [hsf, hdf, Bool.false_eq_true, if_false, runRows, hpr]
              rw [hscan]
              exact ⟨rfl, fun r hr => by cases hr⟩
            | ok parsed =>
              rw [hpr] at h
              simp at h

/-- Every scan that reaches the commit point returns the expiry tag with
the loop's alerts (suppressed on the warm-up pass), commits the loop's
`current_oi` as the new baseline, and raises the warm-up flag. -/
theorem scan_run (inp : ScanInput) (st : ScanState)
    (parsed : List (Int × String × Int)) (h : scanRows inp = some parsed) :
    ∃ (sp : Int) (exp2 : String), inp.spot = some sp ∧
      scan_for_oi_spikes inp st =
        (let st1 := reset_on_new_trading_day inp.today inp.nowSec st
         let res := parsed.foldl (rowStep st1.warmed_up st1.prev_oi inp.nowStr) ([], [])
         if st1.warmed_up = false then
           (.ok ⟨some sp, some (roundHalfEven ((sp : ℚ) / 50) * 50), [], exp2⟩,
            { st1 with prev_oi := res.1, warmed_up := true,
                       last_check := some inp.nowStr })
         else
           (.ok ⟨some sp, some (roundHalfEven ((sp : ℚ) / 50) * 50), res.2, exp2⟩,
            { st1 with prev_oi := res.1, last_check := some inp.nowStr })) := by
  cases hs : inp.spot with
  | none => rw [scanRows, hs] at h; cases h
  | some sp =>
    cases hc : inp.chain with
    | none => rw [scanRows, hs, hc] at h; cases h
    | some pr =>
      obtain ⟨raw, einfo⟩ := pr
      cases hre : raw.isEmpty with
      | true => simp only [scanRows, hs, hc, hre, if_true] at h; cases h
      | false =>
        simp only [scanRows, hs, hc, hre, Bool.false_eq_true, if_false] at h
        cases hsf : strikeFilter
            (raw.filter (symbolMatches (get_current_weekly_expiry einfo inp.today)))
            (roundHalfEven ((sp : ℚ) / 50) * 50) with
        | error e => rw [hsf] at h; cases h
        | ok df2 =>
          rw [hsf] at h
          cases hdf : df2.isEmpty with
          | true => simp only [hdf, if_true] at h; cases h
          | false =>
            simp only [hdf, Bool.false_eq_true, if_false] at h
            cases hpr : parseRows df2 with
            | error e => rw [hpr] at h; cases h
            | ok parsed' =>
              rw [hpr] at h
              simp only [Option.some.injEq] at h
              subst h
              refine ⟨sp, get_current_weekly_expiry einfo inp.today, rfl, ?_⟩
              rw [scan_eq_main inp st sp raw einfo hs hc hre]
              simp only [hsf, hdf, Bool.false_eq_true, if_false, runRows, hpr]

theorem roundHalfEven_intCast (n : Int) : roundHalfEven ((n : ℚ)) = n := by
  unfold roundHalfEven
  rw [Int.floor_intCast]
  simp only [sub_self]
  norm_num

theorem atm_at_25000 : roundHalfEven (((25000 : Int) : ℚ) / 50) * 50 = (25000 : Int) := by
  have h1 : (((25000 : Int) : ℚ) / 50) = ((500 : Int) : ℚ) := by norm_num
  rw [h1, roundHalfEven_intCast]
  decide

/-- A scan that reaches the commit point while not warmed up returns no
alerts, commits the loop's `current_oi`, and raises the warm-up flag. -/
theorem scan_run_not_warmed (inp : ScanInput) (st : ScanState)
    (parsed : List (Int × String × Int)) (h : scanRows inp = some parsed)
    (hw1 : (reset_on_new_trading_day inp.today inp.nowSec st).warmed_up = false) :
    ∃ (sp : Int) (exp2 : String),
      scan_for_oi_spikes inp st =
        (.ok ⟨some sp, some (roundHalfEven ((sp : ℚ) / 50) * 50), [], exp2⟩,
         { reset_on_new_trading_day inp.today inp.nowSec st with
             prev_oi := buildOiMap parsed, warmed_up := true,
             last_check := some inp.nowStr }) := by
  obtain ⟨sp, exp2, hsp, heq⟩ := scan_run inp st parsed h
  refine ⟨sp, exp2, ?_⟩
  rw [heq]
  simp [hw1, foldl_rowStep_fst, buildOiMap]

theorem rowStep_snd_eq_or_append (w : Bool) (pm : OiMap) (ns : String)
    (acc : OiMap × List Alert) (p : Int × String × Int) :
    (rowStep w pm ns acc p).2 = acc.2 ∨
    (rowStep w pm ns acc p).2.length = acc.2.length + 1 := by
  simp only [rowStep]
  split_ifs <;> simp

/-! ### Claim theorems -/

/-- C1: for every contract processed by the scan loop, an alert is
emitted if and only if the warm-up flag is set, the prior OI is at least
`MIN_BASE_OI`, the current OI strictly exceeds the prior, and
`(oi - prev) / prev * 100` is strictly greater than
`OI_SPIKE_THRESHOLD`; with the configured threshold 500 and prior 1000,
a current OI of 6001 (pct 500.1) fires and 6000 (pct 500.0) does not. -/
theorem alert_fires_iff_threshold :
    (∀ (warmed : Bool) (prevMap : OiMap) (nowStr : String) (acc : OiMap × List Alert)
        (strike : Int) (opt_type : String) (oi : Int),
        ((rowStep warmed prevMap nowStr acc (strike, opt_type, oi)).2.length
            = acc.2.length + 1
          ↔ (warmed = true ∧
             dictGet prevMap (keyOf strike opt_type) 0 ≥ MIN_BASE_OI ∧
             oi > dictGet prevMap (keyOf strike opt_type) 0 ∧
             ((oi : ℚ) - ((dictGet prevMap (keyOf strike opt_type) 0 : Int) : ℚ))
                 / ((dictGet prevMap (keyOf strike opt_type) 0 : Int) : ℚ) * 100
               > OI_SPIKE_THRESHOLD))) ∧
    (rowStep true [("CE_25000", 1000)] "10:00:00" ([], []) (25000, "CE", 6001)).2.length = 1 ∧
    (rowStep true [("CE_25000", 1000)] "10:00:00" ([], []) (25000, "CE", 6000)).2.length = 0 := by
  have hgen : ∀ (warmed : Bool) (prevMap : OiMap) (nowStr : String)
      (acc : OiMap × List Alert) (strike : Int) (opt_type : String) (oi : Int),
      ((rowStep warmed prevMap nowStr acc (strike, opt_type, oi)).2.length
          = acc.2.length + 1
        ↔ (warmed = true ∧
           dictGet prevMap (keyOf strike opt_type) 0 ≥ MIN_BASE_OI ∧
           oi > dictGet prevMap (keyOf strike opt_type) 0 ∧
           ((oi : ℚ) - ((dictGet prevMap (keyOf strike opt_type) 0 : Int) : ℚ))
               / ((dictGet prevMap (keyOf strike opt_type) 0 : Int) : ℚ) * 100
             > OI_SPIKE_THRESHOLD)) := by
    intro warmed prevMap nowStr acc strike opt_type oi
    simp only [rowStep]
    split_ifs with h1 h2
    · simp only [List.length_append, List.length_cons, List.length_nil]
      simp [h1.1, h1.2.1, h1.2.2, h2]
    · constructor
      · intro hx; simp at hx
      · intro hx; exact absurd hx.2.2.2 h2
    · constructor
      · intro hx; simp at hx
      · intro hx; exact absurd ⟨hx.1, hx.2.1, hx.2.2.1⟩ h1
  have hget : dictGet [("CE_25000", 1000)] (keyOf 25000 "CE") 0 = 1000 := rfl
  refine ⟨hgen, ?_, ?_⟩
  · have h := (hgen true [("CE_25000", 1000)] "10:00:00" ([], []) 25000 "CE" 6001).mpr ?_
    · simpa using h
    · refine ⟨rfl, ?_, ?_, ?_⟩ <;> rw [hget] <;>
        norm_num [MIN_BASE_OI, OI_SPIKE_THRESHOLD]
  · rcases rowStep_snd_eq_or_append true [("CE_25000", 1000)] "10:00:00" ([], [])
        (25000, "CE", 6000) with hc | hc
    · rw [hc]; rfl
    · exfalso
      have h := (hgen true [("CE_25000", 1000)] "10:00:00" ([], []) 25000 "CE" 6000).mp
        (by simpa using hc)
      rw [hget] at h
      have h4 := h.2.2.2
      norm_num [OI_SPIKE_THRESHOLD] at h4

/-- C10: the percentage is computed only under the
`prev >= MIN_BASE_OI` guard with `MIN_BASE_OI > 0` (so the divisor is
never zero: any row that changes the alert list has a nonzero prior),
and a key absent from the baseline is read as `prior = 0`, which never
fires an alert on its first appearance. -/
theorem division_guard_and_new_key :
    (0 : Int) < MIN_BASE_OI ∧
    (∀ (warmed : Bool) (prevMap : OiMap) (nowStr : String) (acc : OiMap × List Alert)
        (strike : Int) (opt_type : String) (oi : Int),
        (rowStep warmed prevMap nowStr acc (strike, opt_type, oi)).2 ≠ acc.2 →
          dictGet prevMap (keyOf strike opt_type) 0 ≥ MIN_BASE_OI ∧
          dictGet prevMap (keyOf strike opt_type) 0 ≠ 0) ∧
    (∀ (warmed : Bool) (prevMap : OiMap) (nowStr : String) (acc : OiMap × List Alert)
        (strike : Int) (opt_type : String) (oi : Int),
        oiLookup prevMap (keyOf strike opt_type) = none →
          dictGet prevMap (keyOf strike opt_type) 0 = 0 ∧
          (rowStep warmed prevMap nowStr acc (strike, opt_type, oi)).2 = acc.2) := by
  refine ⟨by decide, ?_, ?_⟩
  · intro warmed prevMap nowStr acc strike opt_type oi hne
    simp only [rowStep] at hne
    split_ifs at hne with h1 h2
    · have hge := h1.2.1
      refine ⟨hge, ?_⟩
      have : (1000 : Int) ≤ dictGet prevMap (keyOf strike opt_type) 0 := hge
      omega
    · exact absurd rfl hne
    · exact absurd rfl hne
  · intro warmed prevMap nowStr acc strike opt_type oi hnone
    have hfind : prevMap.find? (fun p => p.1 == keyOf strike opt_type) = none := by
      simpa [oiLookup] using hnone
    have hget : dictGet prevMap (keyOf strike opt_type) 0 = 0 := by
      simp [dictGet, hfind]
    refine ⟨hget, ?_⟩
    simp only [rowStep, hget]
    rw [if_neg]
    · intro hcontra
      have h2 := hcontra.2.1
      have : (1000 : Int) ≤ 0 := h2
      omega

/-- C10 witness: a key absent from an empty baseline yields prior 0 and
no alert. -/
theorem division_guard_witness :
    dictGet [] (keyOf 100 "CE") 0 = 0 ∧
    (rowStep true [] "t" (([], []) : OiMap × List Alert) (100, "CE", 5000)).2
      = (([], []) : OiMap × List Alert).2 :=
  division_guard_and_new_key.2.2 true [] "t" ([], []) 100 "CE" 5000 rfl

/-- Session state used to exercise the reset policy at concrete inputs. -/
def resetDemoState : ScanState :=
  { prev_oi := [("CE_25000", 1000)], alerts := [{ time := "09:20:00", msg := "m" }],
    warmed_up := true, last_check := none, last_run_date := some 0 }

/-- C3 counterexample: on a date change (stored date 0, today 1) with the
market closed (midnight IST), `reset_on_new_trading_day` does NOT fire —
the baseline survives — refuting "independent of whether market hours
are open". -/
theorem reset_market_hours_counterexample :
    resetDemoState.last_run_date ≠ some 1 ∧
    is_market_open 0 = false ∧
    reset_on_new_trading_day 1 0 resetDemoState = resetDemoState ∧
    resetDemoState.prev_oi ≠ [] := by
  refine ⟨by decide, by decide, ?_, by decide⟩
  exact reset_of_market_closed 1 0 resetDemoState (by decide)

/-- C3 amended: the reset fires exactly when the stored date differs from
today's IST date AND the market is open; when it fires it clears the
baseline and the ledger, lowers the warm-up flag and stores today's
date; once the stored date equals today, any further call on that date
is a no-op. -/
theorem reset_policy_amended :
    (∀ (today : Int) (nowSec : Nat) (st : ScanState),
        st.last_run_date = some today →
        reset_on_new_trading_day today nowSec st = st) ∧
    (∀ (today : Int) (nowSec : Nat) (st : ScanState),
        is_market_open nowSec = false →
        reset_on_new_trading_day today nowSec st = st) ∧
    (∀ (today : Int) (nowSec : Nat) (st : ScanState),
        st.last_run_date ≠ some today → is_market_open nowSec = true →
        reset_on_new_trading_day today nowSec st =
          { prev_oi := [], alerts := [], warmed_up := false,
            last_check := st.last_check, last_run_date := some today }) ∧
    (∀ (today : Int) (n1 n2 : Nat) (st : ScanState),
        is_market_open n1 = true →
        reset_on_new_trading_day today n2 (reset_on_new_trading_day today n1 st) =
          reset_on_new_trading_day today n1 st) := by
  refine ⟨reset_of_same_date, reset_of_market_closed, reset_fires, ?_⟩
  intro today n1 n2 st h1
  by_cases hd : st.last_run_date = some today
  · rw [reset_of_same_date today n1 st hd, reset_of_same_date today n2 st hd]
  · rw [reset_fires today n1 st hd h1]
    exact reset_of_same_date today n2 _ rfl

/-- C3 witness: a state whose stored date is already today is untouched. -/
theorem reset_policy_witness :
    reset_on_new_trading_day 0 0 resetDemoState = resetDemoState :=
  reset_policy_amended.1 0 0 resetDemoState rfl

/-- C7: a merge never leaves the ledger longer than
`MAX_ALERTS_TO_KEEP`; merging more than `MAX_ALERTS_TO_KEEP` fresh
distinct alerts leaves exactly the `MAX_ALERTS_TO_KEEP` most recently
admitted events, evicting the oldest first. -/
theorem ledger_bound_eviction :
    (∀ existing incoming : List Alert,
        (merge_alerts existing incoming).length ≤ MAX_ALERTS_TO_KEEP) ∧
    (∀ existing incoming : List Alert,
        (incoming.map Alert.msg).Nodup →
        (∀ a ∈ incoming, a.msg ∉ existing.map Alert.msg) →
        MAX_ALERTS_TO_KEEP < incoming.length →
        merge_alerts existing incoming
            = lastN MAX_ALERTS_TO_KEEP (existing ++ incoming) ∧
        (merge_alerts existing incoming).length = MAX_ALERTS_TO_KEEP) := by
  constructor
  · intro existing incoming
    rw [merge_alerts, lastN_length]
    omega
  · intro existing incoming hnd hfresh hlen
    have hfold : incoming.foldl
        (fun acc a => if a.msg ∈ acc.map Alert.msg then acc else acc ++ [a])
        existing = existing ++ incoming := by
      rw [dedup_foldl incoming existing hnd]
      congr 1
      rw [List.filter_eq_self]
      intro a ha
      simp [hfresh a ha]
    refine ⟨?_, ?_⟩
    · rw [merge_alerts, hfold]
    · rw [merge_alerts, hfold, lastN_length, List.length_append]
      omega

/-- Fifty-one pairwise distinct alerts. -/
def fiftyOneAlerts : List Alert :=
  (List.range 51).map (fun i => { time := "t", msg := toString i })

/-- C7 witness: merging 51 distinct alerts into an empty ledger leaves
exactly 50. -/
theorem ledger_bound_witness :
    (merge_alerts [] fiftyOneAlerts).length = MAX_ALERTS_TO_KEEP :=
  (ledger_bound_eviction.2 [] fiftyOneAlerts (by decide) (by simp) (by decide)).2

/-- C8: merging an alert whose message equals one already in the ledger
leaves the ledger unchanged, and in general a merge appends exactly the
incoming alerts with fresh messages, in detection order, before
truncation. -/
theorem ledger_dedup_order :
    (∀ (existing : List Alert) (a : Alert),
        existing.length ≤ MAX_ALERTS_TO_KEEP →
        a.msg ∈ existing.map Alert.msg →
        merge_alerts existing [a] = existing) ∧
    (∀ (existing incoming : List Alert),
        (incoming.map Alert.msg).Nodup →
        merge_alerts existing incoming =
          lastN MAX_ALERTS_TO_KEEP
            (existing ++
              incoming.filter (fun a => decide (a.msg ∉ existing.map Alert.msg)))) := by
  constructor
  · intro existing a hlen hmem
    rw [merge_alerts]
    simp only [List.foldl_cons, List.foldl_nil, if_pos hmem]
    exact lastN_of_length_le _ _ hlen
  · intro existing incoming hnd
    rw [merge_alerts, dedup_foldl incoming existing hnd]

/-- An alert used to exercise ledger deduplication. -/
def dupAlert : Alert :=
  { time := "10:00:00", msg := "CE 25000 | +550.0% | 1,000 → 6,500" }

/-- C8 witness: merging an exact-duplicate message leaves the ledger
unchanged. -/
theorem ledger_dedup_witness :
    merge_alerts [dupAlert] [dupAlert] = [dupAlert] :=
  ledger_dedup_order.1 [dupAlert] dupAlert (by decide) (by decide)

/-! ### Concrete rows, inputs and states for witnesses and counterexamples -/

/-- A well-formed CALL row on the target expiry, in strike range. -/
def okRow : RawRow :=
  { symbol := some "NSE:NIFTY09-10-2025C25000", strike_price := .num 25000,
    option_type := some "CE", oi := .num 2000 }

/-- A well-formed PUT row on the target expiry, in strike range. -/
def peRow : RawRow :=
  { symbol := some "NSE:NIFTY09-10-2025P25000", strike_price := .num 25000,
    option_type := some "PE", oi := .num 3000 }

/-- A row whose OI cell is an unparseable string: `int("abc")` raises. -/
def badOiRow : RawRow :=
  { symbol := some "NSE:NIFTY09-10-2025P25000", strike_price := .num 25000,
    option_type := some "PE", oi := .str "abc" }

/-- A row carrying a negative OI value. -/
def negOiRow : RawRow :=
  { symbol := some "NSE:NIFTY09-10-2025C25000", strike_price := .num 25000,
    option_type := some "CE", oi := .num (-5) }

/-- A row whose symbol does not contain the resolved expiry tag. -/
def expiryMissRow : RawRow :=
  { symbol := some "NSE:NIFTY24JAN25000CE", strike_price := .num 25000,
    option_type := some "CE", oi := .num 2000 }

/-- A scan input whose spot fetch failed, on a new trading day during
market hours (so the reset fires before the failure is noticed). -/
def spotFailInput : ScanInput :=
  { today := 1, nowSec := 34000, nowStr := "10:00:00", spot := none, chain := none }

/-- A warmed-up state carrying data from the previous day. -/
def preResetState : ScanState :=
  { prev_oi := [("PE_25000", 2000)], alerts := [], warmed_up := true,
    last_check := none, last_run_date := some 0 }

/-- A successful one-row scan input (same stored date, so no reset). -/
def warmupInput : ScanInput :=
  { today := 0, nowSec := 34000, nowStr := "10:00:00", spot := some 25000,
    chain := some ([okRow], [{ expiry := some 3, date := "09-10-2025" }]) }

/-- A not-yet-warmed state. -/
def warmupState : ScanState :=
  { prev_oi := [], alerts := [], warmed_up := false, last_check := none,
    last_run_date := some 0 }

/-- A successful two-row scan input. -/
def baselineInput : ScanInput :=
  { today := 0, nowSec := 0, nowStr := "11:00:00", spot := some 25000,
    chain := some ([okRow, peRow], [{ expiry := some 3, date := "09-10-2025" }]) }

/-- A warmed state whose baseline holds a key absent from the snapshot. -/
def baselineState : ScanState :=
  { prev_oi := [("CE_24000", 500)], alerts := [], warmed_up := true,
    last_check := none, last_run_date := some 0 }

/-- A scan input whose only row misses the expiry tag. -/
def expiryMissInput : ScanInput :=
  { today := 0, nowSec := 0, nowStr := "09:00:00", spot := some 25000,
    chain := some ([expiryMissRow], [{ expiry := some 3, date := "09-10-2025" }]) }

/-- A warmed state with an empty baseline and the date already stored. -/
def expiryMissState : ScanState :=
  { prev_oi := [], alerts := [], warmed_up := true, last_check := none,
    last_run_date := some 0 }

/-- A scan input containing one good row and one row with unparseable OI. -/
def malformedInput : ScanInput :=
  { today := 0, nowSec := 0, nowStr := "12:00:00", spot := some 25000,
    chain := some ([okRow, badOiRow], [{ expiry := some 3, date := "09-10-2025" }]) }

/-- A warmed state with an empty baseline and the date already stored. -/
def malformedState : ScanState :=
  { prev_oi := [], alerts := [], warmed_up := true, last_check := none,
    last_run_date := some 0 }

theorem scanRows_warmupInput :
    scanRows warmupInput = some [(25000, "CE", 2000)] := by
  simp only [scanRows, warmupInput]
  rw [atm_at_25000]
  rfl

theorem scanRows_baselineInput :
    scanRows baselineInput = some [(25000, "CE", 2000), (25000, "PE", 3000)] := by
  simp only [scanRows, baselineInput]
  rw [atm_at_25000]
  rfl

/-! ### Remaining claim theorems -/

/-- C2: while the warm-up flag is false, a scan never returns an alert;
when such a scan reaches the commit point it still populates the
baseline from the snapshot and raises the warm-up flag. -/
theorem warmup_no_alerts :
    ∀ (inp : ScanInput) (st : ScanState), st.warmed_up = false →
      (∀ r, (scan_for_oi_spikes inp st).1 = Except.ok r → r.new_alerts = []) ∧
      (∀ parsed, scanRows inp = some parsed →
        (scan_for_oi_spikes inp st).2.prev_oi = buildOiMap parsed ∧
        (scan_for_oi_spikes inp st).2.warmed_up = true) := by
  intro inp st hw
  have hw1 := reset_warmed_up_false inp.today inp.nowSec st hw
  constructor
  · intro r hr
    cases hsr : scanRows inp with
    | none => exact (scan_fail inp st hsr).2 r hr
    | some parsed =>
      obtain ⟨sp, exp2, heq⟩ := scan_run_not_warmed inp st parsed hsr hw1
      rw [heq] at hr
      cases hr
      rfl
  · intro parsed hsr
    obtain ⟨sp, exp2, heq⟩ := scan_run_not_warmed inp st parsed hsr hw1
    rw [heq]
    exact ⟨rfl, rfl⟩

/-- C2 witness: a concrete first scan populates the baseline with the
snapshot's OI and sets the warm-up flag. -/
theorem warmup_no_alerts_witness :
    (scan_for_oi_spikes warmupInput warmupState).2.prev_oi
        = buildOiMap [(25000, "CE", 2000)] ∧
    (scan_for_oi_spikes warmupInput warmupState).2.warmed_up = true :=
  (warmup_no_alerts warmupInput warmupState rfl).2
    [(25000, "CE", 2000)] scanRows_warmupInput

/-- C4 counterexample: a failing scan (spot fetch failed) on a new
trading day during market hours mutates the session state — the reset at
the top of the scan clears the baseline before the failure is noticed —
refuting "the Baseline Store, Alert Ledger and WarmupFlag are exactly as
they were before the scan began". -/
theorem scan_failure_counterexample :
    (scan_for_oi_spikes spotFailInput preResetState).1
        = Except.ok ⟨none, none, [], "Spot fetch failed"⟩ ∧
    preResetState.prev_oi ≠ [] ∧
    (scan_for_oi_spikes spotFailInput preResetState).2.prev_oi = [] ∧
    (scan_for_oi_spikes spotFailInput preResetState).2 ≠ preResetState := by
  refine ⟨rfl, by decide, by decide, by decide⟩

/-- C4 amended: on every failure path the scan returns a sentinel/empty
result and leaves the session state exactly as the initial trading-day
reset left it — the failure paths themselves commit nothing. -/
theorem scan_failure_leaves_state (inp : ScanInput) (st : ScanState)
    (h : scanRows inp = none) :
    (scan_for_oi_spikes inp st).2 = reset_on_new_trading_day inp.today inp.nowSec st ∧
    ∀ r, (scan_for_oi_spikes inp st).1 = Except.ok r → r.new_alerts = [] :=
  scan_fail inp st h

/-- C4 witness: the spot-failure scan leaves exactly the post-reset
state. -/
theorem scan_failure_witness :
    (scan_for_oi_spikes spotFailInput preResetState).2 =
      reset_on_new_trading_day spotFailInput.today spotFailInput.nowSec preResetState :=
  (scan_failure_leaves_state spotFailInput preResetState rfl).1

/-- C5: after a scan that reaches the commit point, the new baseline is
exactly the snapshot's OI map: every snapshot key maps to that
snapshot's OI, and every key of the new baseline comes from the
snapshot (stale keys are dropped). -/
theorem baseline_advances :
    ∀ (inp : ScanInput) (st : ScanState) (parsed : List (Int × String × Int)),
      scanRows inp = some parsed →
      (parsed.map (fun p => keyOf p.1 p.2.1)).Nodup →
      (scan_for_oi_spikes inp st).2.prev_oi = buildOiMap parsed ∧
      (∀ p ∈ parsed,
        oiLookup (scan_for_oi_spikes inp st).2.prev_oi (keyOf p.1 p.2.1)
          = some p.2.2) ∧
      (∀ k, oiLookup (scan_for_oi_spikes inp st).2.prev_oi k ≠ none →
        k ∈ parsed.map (fun p => keyOf p.1 p.2.1)) := by
  intro inp st parsed hsr hnd
  have hprev : (scan_for_oi_spikes inp st).2.prev_oi = buildOiMap parsed := by
    obtain ⟨sp, exp2, hsp, heq⟩ := scan_run inp st parsed hsr
    rw [heq]
    by_cases hw : (reset_on_new_trading_day inp.today inp.nowSec st).warmed_up = false
    · simp [hw, foldl_rowStep_fst, buildOiMap]
    · simp [hw, foldl_rowStep_fst, buildOiMap]
  refine ⟨hprev, ?_, ?_⟩
  · intro p hp
    rw [hprev]
    exact buildOiMap_mem parsed hnd p hp
  · intro k hk
    rw [hprev] at hk
    exact buildOiMap_domain parsed k hk

/-- C5 witness: a concrete committing scan replaces the baseline
(including dropping the stale key `CE_24000`) with the snapshot map. -/
theorem baseline_advances_witness :
    (scan_for_oi_spikes baselineInput baselineState).2.prev_oi
      = buildOiMap [(25000, "CE", 2000), (25000, "PE", 3000)] :=
  (baseline_advances baselineInput baselineState
    [(25000, "CE", 2000), (25000, "PE", 3000)] scanRows_baselineInput (by decide)).1

/-- C6 counterexample: when no symbol matches the expiry tag the code
does NOT fall back to the unfiltered set: its pipeline yields the empty
set (and the scan surfaces the "(no matching strikes)" sentinel) while
the spec's fallback normalizer would keep the row. -/
theorem expiry_fallback_counterexample :
    symbolMatches "09-10-2025" expiryMissRow = false ∧
    strikeFilter ([expiryMissRow].filter (symbolMatches "09-10-2025")) 25000
      = .ok [] ∧
    normalize_with_fallback [expiryMissRow] "09-10-2025" 25000
      = .ok [expiryMissRow] ∧
    (scan_for_oi_spikes expiryMissInput expiryMissState).1
      = .ok ⟨some 25000, some (roundHalfEven (((25000 : Int) : ℚ) / 50) * 50), [],
             "09-10-2025 (no matching strikes)"⟩ := by
  refine ⟨by decide, rfl, rfl, ?_⟩
  rw [scan_eq_main expiryMissInput expiryMissState 25000 [expiryMissRow]
    [{ expiry := some 3, date := "09-10-2025" }] rfl rfl rfl]
  rfl

/-- C6 amended: there is no expiry-filter fallback — when no raw row's
symbol contains the resolved expiry tag, the scan returns the
"(no matching strikes)" sentinel with the state untouched beyond the
initial reset. -/
theorem no_expiry_fallback_amended :
    ∀ (inp : ScanInput) (st : ScanState) (sp : Int) (raw : List RawRow)
      (einfo : List ExpiryEntry),
      inp.spot = some sp → inp.chain = some (raw, einfo) → raw.isEmpty = false →
      (∀ r ∈ raw, symbolMatches (get_current_weekly_expiry einfo inp.today) r = false) →
      scan_for_oi_spikes inp st =
        (.ok ⟨some sp, some (roundHalfEven ((sp : ℚ) / 50) * 50), [],
              get_current_weekly_expiry einfo inp.today ++ " (no matching strikes)"⟩,
         reset_on_new_trading_day inp.today inp.nowSec st) := by
  intro inp st sp raw einfo hs hc hre hall
  have hfilter : raw.filter (symbolMatches (get_current_weekly_expiry einfo inp.today))
      = [] := by
    rw [List.filter_eq_nil_iff]
    intro a ha
    simp [hall a ha]
  rw [scan_eq_main inp st sp raw einfo hs hc hre]
  simp only [hfilter]
  rfl

/-- C6 witness: the one-row no-match input surfaces the sentinel. -/
theorem no_expiry_fallback_witness :
    scan_for_oi_spikes expiryMissInput expiryMissState =
      (.ok ⟨some 25000, some (roundHalfEven (((25000 : Int) : ℚ) / 50) * 50), [],
            "09-10-2025 (no matching strikes)"⟩,
       reset_on_new_trading_day 0 0 expiryMissState) :=
  no_expiry_fallback_amended expiryMissInput expiryMissState 25000 [expiryMissRow]
    [{ expiry := some 3, date := "09-10-2025" }] rfl rfl rfl (by decide)

/-- C9 counterexample: a row with an unparseable OI cell is not dropped —
it aborts the whole scan with `ValueError` even though another row is
well-formed — and a negative OI is stored as-is, not coerced to a
non-negative integer. -/
theorem malformed_rows_counterexample :
    parseRow okRow = .ok (25000, "CE", 2000) ∧
    parseRow badOiRow = .error "ValueError" ∧
    (scan_for_oi_spikes malformedInput malformedState).1 = .error "ValueError" ∧
    runRows true [] "t" [negOiRow] = .ok ([("CE_25000", -5)], []) := by
  refine ⟨rfl, rfl, ?_, rfl⟩
  rw [scan_eq_main malformedInput malformedState 25000 [okRow, badOiRow]
    [{ expiry := some 3, date := "09-10-2025" }] rfl rfl rfl, atm_at_25000]
  rfl

/-- C9 amended: an unparseable strike or OI cell aborts the whole row
loop (nothing is dropped), and the OI of a kept row is stored exactly as
parsed — `int()` applies no non-negativity clamp. -/
theorem malformed_rows_amended :
    (∀ (w : Bool) (pm : OiMap) (ns : String) (rows : List RawRow) (r : RawRow),
        r ∈ rows → exceptOk (parseRow r) = false →
        exceptOk (runRows w pm ns rows) = false) ∧
    (∀ (w : Bool) (pm : OiMap) (ns : String) (acc : OiMap × List Alert)
        (strike : Int) (opt : String) (oi : Int),
        oiLookup (rowStep w pm ns acc (strike, opt, oi)).1 (keyOf strike opt)
          = some oi) := by
  constructor
  · intro w pm ns rows r hr hbad
    have h := parseRows_error_of_mem rows r hr hbad
    cases hps : parseRows rows with
    | error e => simp [runRows, hps, exceptOk]
    | ok ps => rw [hps] at h; simp [exceptOk] at h
  · intro w pm ns acc strike opt oi
    rw [rowStep_fst]
    exact dictInsert_lookup_self acc.1 (keyOf strike opt) oi

/-- C9 witness: a ledger scan over just the malformed row errors out. -/
theorem malformed_rows_witness :
    exceptOk (runRows true [] "t" [badOiRow]) = false :=
  malformed_rows_amended.1 true [] "t" [badOiRow] badOiRow (by simp) rfl

end NiftyOiAlert
